import Mathlib

/-!
# Verification of the myDataLib cleaning pipeline

Shallow embedding of `myDataLib/cleaning.py` (together with the parts of
`myDataLib/io.py` and of the external pandas / scikit-learn collaborators that
the pipeline invokes), and proofs of the frozen claims about it.

A pandas `DataFrame` is modelled as an ordered association list of named
columns, each an equally long list of cells.  A cell is a numeric value, a
text value, or the missing-value marker `NaN`.  Numeric payloads live in an
arbitrary linearly ordered field `K` (instantiated at `ℚ` for decidable
concrete computations and at `ℝ` where scikit-learn's standard scaler takes a
square root).  Python exceptions are modelled with `Except String`.
-/

set_option autoImplicit false
set_option linter.unusedSectionVars false

namespace MyDataLib

variable {K : Type} [LinearOrderedField K] [FloorRing K] [DecidableEq K]

/-- One cell of a DataFrame: a number, a string, or the missing marker `NaN`. -/
inductive Cell (K : Type) where
  | num (x : K)
  | str (s : String)
  | na
  deriving DecidableEq

/-- A DataFrame: an ordered list of named columns, each a list of cells.
Rows are positionally aligned across columns. -/
structure Table (K : Type) where
  cols : List (String × List (Cell K))
  deriving DecidableEq

/-- The cells of the column named `c` (empty if there is no such column). -/
def Table.getCol (t : Table K) (c : String) : List (Cell K) :=
  match t.cols.find? (fun p => p.1 == c) with
  | some p => p.2
  | none => []

/-- The column names, in order. -/
def Table.names (t : Table K) : List String := t.cols.map (·.1)

/-- The number of rows (length of the first column; columns are equally long). -/
def Table.nRows (t : Table K) : Nat :=
  match t.cols with
  | [] => 0
  | p :: _ => p.2.length

/-- Cell at row `i` of column `c`, if both exist. -/
def Table.cellAt? (t : Table K) (c : String) (i : Nat) : Option (Cell K) :=
  (t.getCol c)[i]?

/-- `True` iff the cell is the missing marker. -/
def Cell.isNA : Cell K → Bool
  | .na => true
  | _ => false

/-- Numeric payload of a cell, if any. -/
def Cell.toNum : Cell K → Option K
  | .num x => some x
  | _ => none

/-- A column contains at least one missing value (`Series.isnull().any()`). -/
def colHasMissing (cells : List (Cell K)) : Bool := cells.any Cell.isNA

/-- The table contains at least one missing value (`df.isnull().any()` anywhere). -/
def Table.hasMissing (t : Table K) : Bool := t.cols.any (fun p => colHasMissing p.2)

/-- Keep the elements of a list whose positional entry in the boolean mask is
`true` (row selection by a pandas boolean mask). -/
def maskFilter : List Bool → List (Cell K) → List (Cell K)
  | b :: bs, c :: cs => if b then c :: maskFilter bs cs else maskFilter bs cs
  | _, _ => []

/-- Restrict every column of the table to the rows the mask keeps
(`df[mask]`); relative row order is preserved. -/
def Table.filterRows (t : Table K) (mask : List Bool) : Table K :=
  ⟨t.cols.map (fun p => (p.1, maskFilter mask p.2))⟩

/-- Rewrite every column's cells through `g`, which receives the column name
and its cells; column names, order, and count are untouched.  Every write-back
of the pipeline (`df[cols] = ...`) is an instance of this combinator. -/
def Table.mapCols (t : Table K) (g : String → List (Cell K) → List (Cell K)) :
    Table K :=
  ⟨t.cols.map (fun p => (p.1, g p.1 p.2))⟩

/-- Replace the cells of column `c` by `f` applied to them, leaving every
other column untouched. -/
def Table.mapCol (t : Table K) (c : String) (f : List (Cell K) → List (Cell K)) :
    Table K :=
  t.mapCols (fun name cells => if name == c then f cells else cells)

/-! ## Column statistics (pandas / numpy / scikit-learn collaborators) -/

/-- Insert `x` into an already ascending list, keeping it ascending. -/
def insertSorted (x : K) : List K → List K
  | [] => [x]
  | y :: ys => if x ≤ y then x :: y :: ys else y :: insertSorted x ys

/-- Insertion sort, ascending — models the sorting of a column of values. -/
def sortAsc : List K → List K
  | [] => []
  | x :: xs => insertSorted x (sortAsc xs)

/-- Arithmetic mean (`numpy.mean`); the 0 it yields on `[]` is never used. -/
def listMean (xs : List K) : K := xs.sum / (xs.length : K)

/-- Population variance (`numpy.var`, `ddof = 0`), the convention both
scikit-learn scalers use. -/
def popVar (xs : List K) : K :=
  (xs.map (fun x => (x - listMean xs) ^ 2)).sum / (xs.length : K)

/-- Median (`numpy.median`): middle element of the sorted values, or the mean
of the two middle elements when the count is even. -/
def listMedian (xs : List K) : K :=
  let s := sortAsc xs
  let n := s.length
  if n % 2 = 1 then s.getD (n / 2) 0
  else (s.getD (n / 2 - 1) 0 + s.getD (n / 2) 0) / 2

/-- Most frequent value, ties broken towards the smallest value (the
`most_frequent` statistic of scikit-learn's `SimpleImputer`); 0 on `[]`. -/
def modeVal (xs : List K) : K :=
  let s := sortAsc xs
  match s.foldl (fun best x =>
      match best with
      | none => some (x, s.count x)
      | some (b, cb) => if s.count x > cb then some (x, s.count x) else some (b, cb))
    none with
  | some (b, _) => b
  | none => 0

/-- `Series.quantile(q)` with the default linear interpolation, computed on
the values after missing ones are dropped; `none` when no value remains
(pandas yields NaN there). -/
def pandasQuantile (xs : List K) (q : K) : Option K :=
  match sortAsc xs with
  | [] => none
  | s =>
    let n := s.length
    let h : K := ((n : K) - 1) * q
    let lo := s.getD (Int.floor h).toNat 0
    let hi := s.getD (Int.ceil h).toNat 0
    some (lo + (h - (Int.floor h : K)) * (hi - lo))

/-! ## Missing-value handling (`handle_missing_values`, cleaning.py lines 7–37) -/

/-- Columns with at least one missing value, in table order — the default
column selector `df.columns[df.isnull().any()].tolist()` of line 22. -/
def Table.missingCols (t : Table K) : List String :=
  (t.cols.filter (fun p => colHasMissing p.2)).map (·.1)

/-- Resolution of the optional `columns` argument (lines 21–22). -/
def resolveColumns (t : Table K) (columns : Option (List String)) : List String :=
  match columns with
  | none => t.missingCols
  | some cs => cs

/-- The write-back of `df[columns] = df[columns].fillna(fill_value)`
(line 31), applicable once every selected column exists: fill the missing
cells of the selected columns with `v`; everything else is untouched.  The
KeyError that the subscript `df[columns]` raises when a selected column is
absent from the frame is checked in `handle_missing_values` before this
write-back happens. -/
def fillnaCols (t : Table K) (columns : List String) (v : Cell K) : Table K :=
  t.mapCols (fun name cells =>
    if columns.contains name then cells.map (fun c => if c.isNA then v else c)
    else cells)

/-- `df.dropna(subset=columns)` (line 27): keep exactly the rows that have no
missing value in any selected column.  (pandas raises a KeyError on a selector
naming an absent column; here such a selector simply removes every row — no
claim exercises that case.) -/
def dropnaRows (t : Table K) (columns : List String) : Table K :=
  t.filterRows (columns.foldl
    (fun m c => List.zipWith and m ((t.getCol c).map (fun cell => !cell.isNA)))
    (List.replicate t.nRows true))

/-- The strategies scikit-learn's `SimpleImputer` accepts; `fit` raises a
ValueError on anything else — in particular on the string `mode`. -/
def simpleImputerStrategies : List String :=
  ["mean", "median", "most_frequent", "constant"]

/-- The per-column fill statistic of `SimpleImputer` for an accepted strategy.
(`constant` is never routed here by `handle_missing_values`, whose own
constant branch comes first; the `mean` default for it is unreachable.) -/
def imputeStat (strategy : String) (vals : List K) : K :=
  if strategy = "median" then listMedian vals
  else if strategy = "most_frequent" then modeVal vals
  else listMean vals

/-- `SimpleImputer(strategy=strategy).fit_transform(df[columns])` together
with the write-back `df[columns] = ...` (lines 33–34).  Failure cases of the
collaborators: a strategy outside `simpleImputerStrategies` (ValueError from
`fit`); a selected column absent from the frame (KeyError on `df[columns]`);
a text value in a selected column (float conversion fails); a selected column
with no observed value (the imputer drops it, so the write-back shapes
mismatch). -/
def simpleImputerFitTransform (df : Table K) (columns : List String)
    (strategy : String) : Except String (Table K) :=
  if strategy ∈ simpleImputerStrategies then
    if columns.all (fun c => df.names.contains c) then
      if columns.any (fun c => (df.getCol c).any
          (fun cell => match cell with | .str _ => true | _ => false)) then
        .error "could not convert string to float"
      else if columns.any (fun c => ((df.getCol c).filterMap Cell.toNum).isEmpty) then
        .error "SimpleImputer dropped an all-missing column: shape mismatch"
      else
        .ok (df.mapCols (fun name cells =>
          if columns.contains name then
            let stat := imputeStat strategy (cells.filterMap Cell.toNum)
            cells.map (fun c => if c.isNA then .num stat else c)
          else cells))
    else .error "KeyError: a selected column is not in the frame"
  else .error "SimpleImputer got an invalid strategy"

/-- `handle_missing_values(df, strategy, columns, fill_value)` (cleaning.py
lines 7–37); a raised Python exception is `Except.error`.  In the `constant`
branch the missing-fill-value ValueError of lines 29–30 is checked first, as
in the source; then the subscript `df[columns]` of line 31 raises a KeyError
if a selected column is absent from the frame, and only otherwise is the
fillna write-back performed. -/
def handle_missing_values (df : Table K) (strategy : String)
    (columns : Option (List String)) (fill_value : Option (Cell K)) :
    Except String (Table K) :=
  let cols := resolveColumns df columns
  if cols = [] then .ok df
  else if strategy = "drop" then .ok (dropnaRows df cols)
  else if strategy = "constant" then
    match fill_value with
    | none => .error "Must provide a fill_value if strategy is constant."
    | some v =>
      if cols.all (fun c => df.names.contains c) then .ok (fillnaCols df cols v)
      else .error "KeyError: a selected column is not in the frame"
  else if strategy = "mean" ∨ strategy = "median" ∨ strategy = "mode" then
    simpleImputerFitTransform df cols strategy
  else .error "Invalid strategy. Choose mean, median, mode, constant, or drop."

/-! ## Outlier removal (`remove_outliers_iqr`, cleaning.py lines 39–57) -/

/-- `remove_outliers_iqr(df, column, factor)`: quartiles of the column (missing
values dropped), `IQR = Q3 - Q1`, bounds `[Q1 - factor*IQR, Q3 + factor*IQR]`,
and the inclusive row filter
`df[(df[column] >= lower_bound) & (df[column] <= upper_bound)]`.  A missing
cell fails both comparisons and its row is removed, as in pandas; when the
column has no observed value the quartiles are NaN, every comparison fails,
and every row is removed. -/
def remove_outliers_iqr (df : Table K) (column : String) (factor : K) : Table K :=
  let vals := (df.getCol column).filterMap Cell.toNum
  match pandasQuantile vals (1/4), pandasQuantile vals (3/4) with
  | some q1, some q3 =>
    let iqr := q3 - q1
    let lower_bound := q1 - factor * iqr
    let upper_bound := q3 + factor * iqr
    df.filterRows ((df.getCol column).map (fun c =>
      match c with
      | .num x => if lower_bound ≤ x ∧ x ≤ upper_bound then true else false
      | _ => false))
  | _, _ => df.filterRows []

/-! ## Text-field normalization (`clean_text_column`, cleaning.py lines 115–123) -/

/-- ASCII whitespace (space, tab, newline, carriage return, by codepoint):
the `\s` class of the source's regex and what `str.strip()` removes. -/
def isWsChar (c : Char) : Bool :=
  c.toNat = 32 || c.toNat = 9 || c.toNat = 10 || c.toNat = 13

/-- `str.lower()`, modelled on the ASCII range: codepoints 65–90 (`A`–`Z`)
shift by 32 into 97–122 (`a`–`z`); everything else is fixed. -/
def lowerChar (c : Char) : Char :=
  if 65 ≤ c.toNat ∧ c.toNat ≤ 90 then Char.ofNat (c.toNat + 32) else c

/-- `Series.str.lower()` on one string. -/
def lowerStr (s : String) : String := ⟨s.data.map lowerChar⟩

/-- `Series.str.strip()` on one string: drop leading and trailing whitespace. -/
def stripStr (s : String) : String :=
  ⟨((s.data.dropWhile isWsChar).reverse.dropWhile isWsChar).reverse⟩

/-- Characters the regex `[^a-zA-Z0-9\s]` of line 122 keeps: ASCII letters,
digits, and whitespace (by codepoint). -/
def keepChar (c : Char) : Bool :=
  (97 ≤ c.toNat && c.toNat ≤ 122) || (65 ≤ c.toNat && c.toNat ≤ 90) ||
    (48 ≤ c.toNat && c.toNat ≤ 57) || isWsChar c

/-- `Series.str.replace(regex, '', regex=True)` with that class: delete every
character that is not an ASCII letter, digit, or whitespace. -/
def removeSpecialStr (s : String) : String := ⟨s.data.filter keepChar⟩

/-- A pandas `Series.str` method applied to one cell: it transforms text and
yields the missing marker on any non-text entry. -/
def strOp (f : String → String) : Cell K → Cell K
  | .str s => .str (f s)
  | _ => .na

/-- `clean_text_column(df, column, lower, remove_space, remove_special)`
(lines 115–123), applying, for each enabled flag in the source's order:
`str.lower()`, then `str.strip()`, then the special-character removal. -/
def clean_text_column (df : Table K) (column : String)
    (lower remove_space remove_special : Bool) : Table K :=
  let df1 := if lower then df.mapCol column (List.map (strOp lowerStr)) else df
  let df2 := if remove_space then df1.mapCol column (List.map (strOp stripStr)) else df1
  if remove_special then df2.mapCol column (List.map (strOp removeSpecialStr)) else df2

/-! ## Type conversion (`convert_column_type`, cleaning.py lines 59–73) -/

/-- ASCII digit test (codepoints 48–57). -/
def isDigitChar (c : Char) : Bool := 48 ≤ c.toNat && c.toNat ≤ 57

/-- Value of a most-significant-first digit string. -/
def digitsToNat (l : List Char) : Nat :=
  l.foldl (fun acc c => 10 * acc + (c.toNat - '0'.toNat)) 0

/-- Python `float(s)` on a plain decimal literal (optional surrounding
whitespace, optional sign, digits with an optional single point; at least one
digit).  The exponent / infinity / nan spellings the full parser also accepts
are irrelevant to every claim and not modelled. -/
def parseFloat (s : String) : Option K :=
  let cs := ((s.data.dropWhile isWsChar).reverse.dropWhile isWsChar).reverse
  let signed : K × List Char :=
    match cs with
    | '-' :: rest => (-1, rest)
    | '+' :: rest => (1, rest)
    | _ => (1, cs)
  let intPart := signed.2.takeWhile isDigitChar
  let rest := signed.2.dropWhile isDigitChar
  match rest with
  | [] => if intPart.isEmpty then none else some (signed.1 * (digitsToNat intPart : K))
  | '.' :: frac =>
    if frac.all isDigitChar && !(intPart.isEmpty && frac.isEmpty) then
      some (signed.1 * ((digitsToNat intPart : K) +
        (digitsToNat frac : K) / (10 : K) ^ frac.length))
    else none
  | _ => none

/-- Python `int(s)`: optional surrounding whitespace, optional sign, digits
only (a decimal point makes it raise). -/
def parseInt (s : String) : Option K :=
  let cs := ((s.data.dropWhile isWsChar).reverse.dropWhile isWsChar).reverse
  let signed : K × List Char :=
    match cs with
    | '-' :: rest => (-1, rest)
    | '+' :: rest => (1, rest)
    | _ => (1, cs)
  if !signed.2.isEmpty && signed.2.all isDigitChar then
    some (signed.1 * (digitsToNat signed.2 : K))
  else none

/-- Target dtypes exercised by the repository (the example driver casts to
float); the try/except mechanism under verification is the same for any
other target. -/
inductive DType where
  | float
  | int
  deriving DecidableEq

/-- `astype(dtype)` on one cell; `none` models a raised conversion error.
A number casts to float unchanged and to int by truncation towards zero; a
missing value stays missing under a float cast but makes an int cast raise
(pandas: cannot convert non-finite values); text is parsed. -/
def castCell (dtype : DType) : Cell K → Option (Cell K)
  | .num x =>
    match dtype with
    | .float => some (.num x)
    | .int => some (.num (if 0 ≤ x then (⌊x⌋ : K) else -(⌊-x⌋ : K)))
  | .str s =>
    match dtype with
    | .float => (parseFloat s).map .num
    | .int => (parseInt s).map .num
  | .na =>
    match dtype with
    | .float => some .na
    | .int => none

/-- `Series.astype` over a whole column: all-or-nothing — one bad cell makes
the whole cast raise and nothing is written back. -/
def castColumn (dtype : DType) : List (Cell K) → Option (List (Cell K))
  | [] => some []
  | c :: cs =>
    match castCell dtype c, castColumn dtype cs with
    | some c', some cs' => some (c' :: cs')
    | _, _ => none

/-- `convert_column_type(df, column, dtype)` (lines 59–73): try the cast; on
any failure the error is printed, not raised, and the frame is returned with
the column unchanged.  The function is total: no exception escapes it. -/
def convert_column_type (df : Table K) (column : String) (dtype : DType) : Table K :=
  match castColumn dtype (df.getCol column) with
  | some newCells => df.mapCol column (fun _ => newCells)
  | none => df

/-! ## Duplicate removal (`remove_duplicates`, cleaning.py lines 100–113) -/

/-- The `keep` policies of `drop_duplicates`: `'first'`, `'last'`, `False`. -/
inductive KeepPolicy where
  | first
  | last
  | neither
  deriving DecidableEq

/-- The comparison key of row `i`: its cells in the subset columns (all
columns when the subset is `None`). -/
def rowKey (t : Table K) (subset : Option (List String)) (i : Nat) :
    List (Option (Cell K)) :=
  match subset with
  | none => t.cols.map (fun p => p.2[i]?)
  | some cs => cs.map (fun c => (t.getCol c)[i]?)

/-- `remove_duplicates(df, subset, keep)` = `df.drop_duplicates(subset, keep)`:
keep a row iff no earlier (resp. later, resp. other) row has the same key;
relative order of kept rows is preserved. -/
def remove_duplicates (t : Table K) (subset : Option (List String))
    (keep : KeepPolicy) : Table K :=
  let n := t.nRows
  t.filterRows ((List.range n).map (fun i =>
    match keep with
    | .first => decide (∀ j < i, rowKey t subset j ≠ rowKey t subset i)
    | .last => decide (∀ j < n, i < j → rowKey t subset j ≠ rowKey t subset i)
    | .neither => decide (∀ j < n, j ≠ i → rowKey t subset j ≠ rowKey t subset i)))

/-! ## Normalization (`normalize_data`, cleaning.py lines 75–98)

scikit-learn's scalers take a square root (standard scaling), so this step is
modelled over `ℝ`.  Both scalers compute their statistics ignoring missing
values and propagate missing through the transform; a zero-variance (resp.
zero-range) column gets scale 1, as in scikit-learn's `_handle_zeros_in_scale`. -/

/-- Minimum of a list of observed values (0 on `[]`, never used there). -/
def listMin : List K → K
  | [] => 0
  | v :: vs => vs.foldl min v

/-- Maximum of a list of observed values (0 on `[]`, never used there). -/
def listMax : List K → K
  | [] => 0
  | v :: vs => vs.foldl max v

/-- `StandardScaler().fit_transform` on one column: `(x - mean) / std` with
the population standard deviation, scale 1 when the deviation is 0. -/
noncomputable def standardTransformCol (cells : List (Cell ℝ)) : List (Cell ℝ) :=
  let vs := cells.filterMap Cell.toNum
  let μ := listMean vs
  let σ := Real.sqrt (popVar vs)
  let scale := if σ = 0 then 1 else σ
  cells.map (fun c => match c with | .num x => .num ((x - μ) / scale) | c => c)

/-- `MinMaxScaler().fit_transform` on one column: `(x - min) / (max - min)`,
denominator 1 when the range is 0. -/
noncomputable def minmaxTransformCol (cells : List (Cell ℝ)) : List (Cell ℝ) :=
  let vs := cells.filterMap Cell.toNum
  let mn := listMin vs
  let mx := listMax vs
  let den := if mx - mn = 0 then 1 else mx - mn
  cells.map (fun c => match c with | .num x => .num ((x - mn) / den) | c => c)

/-- `normalize_data(df, columns, method)` (lines 75–98): no-op on an empty
column list; ValueError on a method other than `standard` / `minmax`;
otherwise `df[columns] = scaler.fit_transform(df[columns])`, which raises on
a selected column that is absent or holds text. -/
noncomputable def normalize_data (df : Table ℝ) (columns : List String)
    (method : String) : Except String (Table ℝ) :=
  if columns = [] then .ok df
  else if method = "standard" ∨ method = "minmax" then
    if columns.all (fun c => df.names.contains c) then
      if columns.any (fun c => (df.getCol c).any
          (fun cell => match cell with | .str _ => true | _ => false)) then
        .error "could not convert string to float"
      else
        .ok (df.mapCols (fun name cells =>
          if columns.contains name then
            if method = "standard" then standardTransformCol cells
            else minmaxTransformCol cells
          else cells))
    else .error "KeyError: a selected column is not in the frame"
  else .error "Invalid normalization method. Choose standard or minmax."

/-! ## The pipeline orchestrator (`clean_data`, cleaning.py lines 125–174) -/

/-- The keyword configuration of `clean_data`, one field per parameter.
`clean_data` exposes no `fill_value` and no `columns` parameter for the
missing-value step: it always calls `handle_missing_values(df, strategy)`.
An absent (`None`) list configuration and an empty list both skip their step
(Python truthiness), so they are both modelled as `[]`. -/
structure CleanConfig where
  strategy : String
  outlier_cols : List String
  outlier_factor : ℝ
  normalize_cols : List String
  normalize_method : String
  convert_type : List (String × DType)
  dup_subset : Option (List String)
  dup_keep : KeepPolicy
  text_cols : List String
  text_lower : Bool
  text_space : Bool
  text_special : Bool

/-- The outlier loop of lines 157–159: `remove_outliers_iqr` once per listed
column, each pass running on the table produced by the previous one. -/
def applyOutlierRemoval (df : Table K) (cols : List String) (factor : K) : Table K :=
  cols.foldl (fun d c => remove_outliers_iqr d c factor) df

/-- The conversion loop of lines 164–166: `convert_column_type` once per
mapping entry, in mapping order. -/
def applyConversions (df : Table K) (m : List (String × DType)) : Table K :=
  m.foldl (fun d e => convert_column_type d e.1 e.2) df

/-- The text loop of lines 170–172: `clean_text_column` once per listed
column. -/
def applyTextCleaning (df : Table K) (cols : List String)
    (lower space special : Bool) : Table K :=
  cols.foldl (fun d c => clean_text_column d c lower space special) df

/-- `clean_data(filepath, ...)` (lines 125–174).  `importFn` stands for the
`import_data` collaborator of io.py, yielding `none` exactly when importing
fails (missing path, unsupported format, empty or unparseable content) — the
code then returns `None` at line 153 before any cleaning step.  `Except.ok
none` models that `return None`; `Except.error` models a raised exception. -/
noncomputable def clean_data (importFn : String → Option (Table ℝ))
    (filepath : String) (cfg : CleanConfig) : Except String (Option (Table ℝ)) :=
  match importFn filepath with
  | none => .ok none
  | some df0 => do
    let df1 ← handle_missing_values df0 cfg.strategy none none
    let df2 := applyOutlierRemoval df1 cfg.outlier_cols cfg.outlier_factor
    let df3 ← if cfg.normalize_cols = [] then pure df2
      else normalize_data df2 cfg.normalize_cols cfg.normalize_method
    let df4 := applyConversions df3 cfg.convert_type
    let df5 := remove_duplicates df4 cfg.dup_subset cfg.dup_keep
    let df6 := applyTextCleaning df5 cfg.text_cols cfg.text_lower cfg.text_space
      cfg.text_special
    pure (some df6)

/-! ## A spec-worded alternative, for the cumulative-filtering contrast -/

/-- Like `remove_outliers_iqr`, but the quartiles are taken from `src` rather
than from the table being filtered. -/
def removeOutliersIqrBoundsFrom (src df : Table K) (column : String)
    (factor : K) : Table K :=
  let vals := (src.getCol column).filterMap Cell.toNum
  match pandasQuantile vals (1/4), pandasQuantile vals (3/4) with
  | some q1, some q3 =>
    let iqr := q3 - q1
    let lower_bound := q1 - factor * iqr
    let upper_bound := q3 + factor * iqr
    df.filterRows ((df.getCol column).map (fun c =>
      match c with
      | .num x => if lower_bound ≤ x ∧ x ≤ upper_bound then true else false
      | _ => false))
  | _, _ => df.filterRows []

/-- Modelled from the spec's words (§4.2 and the open question of §9), for
contrast only: the ALTERNATIVE multi-column semantics the spec rules out —
every listed column's bounds computed on the original table, the masks
applied cumulatively.  `clean_data` does NOT implement this. -/
def applyOutlierRemovalOriginalBounds (df : Table K) (cols : List String)
    (factor : K) : Table K :=
  cols.foldl (fun d c => removeOutliersIqrBoundsFrom df d c factor) df

/-! ## Concrete fixtures used by the claim theorems -/

/-- Two numeric columns, each with one missing value; the column means and
medians differ (`a`: mean 4, median 2; `b`: mean 10/3, median 4). -/
def tMiss : Table ℚ :=
  ⟨[("a", [.num 1, .na, .num 2, .num 9]), ("b", [.num 2, .num 4, .na, .num 4])]⟩

/-- `tMiss` with each hole filled by its own column's mean. -/
def tMissMean : Table ℚ :=
  ⟨[("a", [.num 1, .num 4, .num 2, .num 9]),
    ("b", [.num 2, .num 4, .num (10/3), .num 4])]⟩

/-- `tMiss` with each hole filled by its own column's median. -/
def tMissMedian : Table ℚ :=
  ⟨[("a", [.num 1, .num 2, .num 2, .num 9]), ("b", [.num 2, .num 4, .num 4, .num 4])]⟩

/-- A table with no missing value anywhere. -/
def tFull : Table ℚ := ⟨[("a", [.num 1, .num 2])]⟩

/-- The five-row column `[1,2,3,4,100]` of the spec's outlier example. -/
def tOutlier : Table ℚ := ⟨[("x", [.num 1, .num 2, .num 3, .num 4, .num 100])]⟩

/-- `tOutlier` after IQR removal: the row holding 100 is gone. -/
def tOutlierKept : Table ℚ := ⟨[("x", [.num 1, .num 2, .num 3, .num 4])]⟩

/-- A constant column: both IQR bounds equal the common value, so inclusive
comparison keeps every row (strict comparison would drop them all). -/
def tConst : Table ℚ := ⟨[("x", [.num 0, .num 0, .num 0, .num 0])]⟩

/-- Two aligned columns distinguishing cumulative outlier filtering from
filtering with bounds from the original table. -/
def tTwoCols : Table ℚ :=
  ⟨[("a", [.num 1, .num 2, .num 3, .num 4, .num 100]),
    ("b", [.num 0, .num 0, .num 0, .num 6, .num 100])]⟩

/-- `tTwoCols` filtered on `a` then on `b` with recomputed bounds: the `b`
bounds tighten to `[-9/4, 15/4]` on the surviving rows and drop the row with
`b = 6` as well. -/
def tTwoColsSeq : Table ℚ :=
  ⟨[("a", [.num 1, .num 2, .num 3]), ("b", [.num 0, .num 0, .num 0])]⟩

/-- `tTwoCols` filtered on `a` then on `b` with bounds from the ORIGINAL `b`
column (`[-9, 15]`): the row with `b = 6` survives. -/
def tTwoColsOrig : Table ℚ :=
  ⟨[("a", [.num 1, .num 2, .num 3, .num 4]), ("b", [.num 0, .num 0, .num 0, .num 6])]⟩

/-- A text column holding the spec's example value, next to a numeric one. -/
def tText : Table ℚ := ⟨[("t", [.str " He!!o "]), ("k", [.num 1])]⟩

/-- `tText` after text cleaning with all three flags on. -/
def tTextClean : Table ℚ := ⟨[("t", [.str "heo"]), ("k", [.num 1])]⟩

/-- One unparseable and one parseable text column, for the type converter. -/
def tConv : Table ℚ := ⟨[("a", [.str "abc"]), ("b", [.str "2"])]⟩

/-- `tConv` after the float-conversion map: `a` untouched, `b` converted. -/
def tConvDone : Table ℚ := ⟨[("a", [.str "abc"]), ("b", [.num 2])]⟩

/-- A real-valued table with a missing value (for the orchestrator claims). -/
def tMissR : Table ℝ := ⟨[("a", [.num 1, .na])]⟩

/-- The column `[0,5,10]` of the spec's normalization example. -/
def tNorm : Table ℝ := ⟨[("x", [.num 0, .num 5, .num 10])]⟩

/-- `tNorm` min-max scaled. -/
noncomputable def tNormMinmax : Table ℝ := ⟨[("x", [.num 0, .num (1/2), .num 1])]⟩

/-- A numeric column next to a text column (for the frame-effect claims). -/
def tFrame : Table ℝ := ⟨[("x", [.num 0, .num 10]), ("y", [.str "a"])]⟩

/-- `tFrame` with `x` min-max scaled and `y` untouched. -/
def tFrameMinmax : Table ℝ := ⟨[("x", [.num 0, .num 1]), ("y", [.str "a"])]⟩

/-- A configuration whose strategy, normalization method, and type map are all
invalid or failing: any post-import step that ran would raise or change the
table. -/
noncomputable def cfgBogus : CleanConfig :=
  ⟨"definitely-invalid", ["x"], 3/2, ["x"], "definitely-invalid", [("x", .int)],
    none, .first, ["x"], true, true, true⟩

/-- A configuration selecting the constant strategy, everything else off. -/
noncomputable def cfgConstant : CleanConfig :=
  ⟨"constant", [], 3/2, [], "standard", [], none, .first, [], true, true, true⟩

/-! ## General lemmas about the table combinators -/

theorem Table.names_mapCols (t : Table K)
    (g : String → List (Cell K) → List (Cell K)) :
    (t.mapCols g).names = t.names := by
  simp [Table.mapCols, Table.names, List.map_map, Function.comp_def]

theorem Table.getCol_eq_nil (t : Table K) (c : String) (h : c ∉ t.names) :
    t.getCol c = [] := by
  obtain ⟨cols⟩ := t
  induction cols with
  | nil => rfl
  | cons p ps ih =>
    simp only [Table.names, List.map_cons, List.mem_cons, not_or] at h
    simpa [Table.getCol, List.find?_cons_of_neg, Ne.symm h.1] using
      ih (by simpa [Table.names] using h.2)

theorem Table.getCol_mapCols (t : Table K)
    (g : String → List (Cell K) → List (Cell K)) (c : String) (h : c ∈ t.names) :
    (t.mapCols g).getCol c = g c (t.getCol c) := by
  obtain ⟨cols⟩ := t
  induction cols with
  | nil => simp [Table.names] at h
  | cons p ps ih =>
    by_cases hc : p.1 = c
    · subst hc
      simp [Table.mapCols, Table.getCol, List.find?_cons_of_pos]
    · rcases List.mem_cons.mp (show c ∈ p.1 :: Table.names ⟨ps⟩ from h) with h' | h'
      · exact absurd h'.symm hc
      · simpa [Table.mapCols, Table.getCol, List.find?_cons_of_neg, hc] using ih h'

theorem Table.getCol_mapCol_ne (t : Table K) (c c' : String)
    (f : List (Cell K) → List (Cell K)) (h : c' ≠ c) :
    (t.mapCol c f).getCol c' = t.getCol c' := by
  by_cases hm : c' ∈ t.names
  · rw [Table.mapCol, Table.getCol_mapCols _ _ _ hm]
    simp [h]
  · rw [Table.getCol_eq_nil _ _ hm, Table.getCol_eq_nil]
    rw [Table.mapCol, Table.names_mapCols]
    exact hm

theorem Table.length_getCol_mapCols (t : Table K)
    (g : String → List (Cell K) → List (Cell K))
    (hg : ∀ name cells, (g name cells).length = cells.length) (c : String) :
    ((t.mapCols g).getCol c).length = (t.getCol c).length := by
  by_cases hm : c ∈ t.names
  · rw [Table.getCol_mapCols _ _ _ hm, hg]
  · rw [Table.getCol_eq_nil _ _ hm, Table.getCol_eq_nil]
    rw [Table.names_mapCols]
    exact hm

theorem Table.mapCol_mapCol (t : Table K) (c : String)
    (f g : List (Cell K) → List (Cell K)) :
    (t.mapCol c f).mapCol c g = t.mapCol c (fun cells => g (f cells)) := by
  obtain ⟨cols⟩ := t
  simp only [Table.mapCol, Table.mapCols, Table.mk.injEq, List.map_map]
  refine List.map_congr_left (fun p _ => ?_)
  by_cases hc : p.1 = c <;> simp [Function.comp_def, hc]

theorem strOp_strOp (f g : String → String) (c : Cell K) :
    strOp f (strOp g c) = strOp (fun s => f (g s)) c := by
  cases c <;> rfl

theorem missingCols_ne_nil (t : Table K) (h : t.hasMissing = true) :
    t.missingCols ≠ [] := by
  simp only [Table.hasMissing, List.any_eq_true] at h
  obtain ⟨p, hp, hmiss⟩ := h
  simp only [Table.missingCols, ne_eq, List.map_eq_nil_iff, List.filter_eq_nil_iff]
  exact fun hall => hall p hp (by simpa using hmiss)

/-! ## Lemmas about the character-level text operations -/

theorem toNat_ofNat_shift (n : Nat) (h1 : 65 ≤ n) (h2 : n ≤ 90) :
    (Char.ofNat (n + 32)).toNat = n + 32 := by
  have hv : (n + 32).isValidChar := Or.inl (by omega)
  rw [Char.ofNat, dif_pos hv]
  simp only [Char.toNat, Char.ofNatAux, UInt32.toNat, BitVec.toNat_ofNatLt]

theorem isWsChar_lowerChar (c : Char) : isWsChar (lowerChar c) = isWsChar c := by
  unfold lowerChar
  by_cases h : 65 ≤ c.toNat ∧ c.toNat ≤ 90
  · rw [if_pos h]
    have ht := toNat_ofNat_shift c.toNat h.1 h.2
    have h65 := h.1
    have e1 : c.toNat + 32 ≠ 32 := by omega
    have e2 : c.toNat + 32 ≠ 9 := by omega
    have e3 : c.toNat + 32 ≠ 10 := by omega
    have e4 : c.toNat + 32 ≠ 13 := by omega
    have f1 : c.toNat ≠ 32 := by omega
    have f2 : c.toNat ≠ 9 := by omega
    have f3 : c.toNat ≠ 10 := by omega
    have f4 : c.toNat ≠ 13 := by omega
    simp [isWsChar, ht, e1, e2, e3, e4, f1, f2, f3, f4]
  · rw [if_neg h]

theorem stripStr_lowerStr (s : String) :
    stripStr (lowerStr s) = lowerStr (stripStr s) := by
  have hws : (fun c => isWsChar (lowerChar c)) = isWsChar := by
    funext c; exact isWsChar_lowerChar c
  simp only [stripStr, lowerStr, List.dropWhile_map, List.reverse_map,
    Function.comp_def, hws]

/-! ## Claim theorems -/

/-- C1: `handle_missing_values` promises `mode` imputation (its docstring
lists `mode` as a valid strategy, and the spec says the statistic is computed
and filled), but lines 32–34 pass the string straight to scikit-learn's
`SimpleImputer`, which accepts only mean / median / most_frequent / constant
and raises — so strategy `mode` always fails on a table with missing values
instead of filling with the column mode, while `mean` and `median` do fill
each missing entry of each selected column with the per-column statistic
computed from its non-missing values. -/
theorem mode_strategy_raises_while_mean_median_fill :
    handle_missing_values tMiss "mode" none none =
      .error "SimpleImputer got an invalid strategy"
    ∧ handle_missing_values tMiss "mean" none none = .ok tMissMean
    ∧ handle_missing_values tMiss "median" none none = .ok tMissMedian := by
  refine ⟨?_, ?_, ?_⟩
  · simp [handle_missing_values, resolveColumns, Table.missingCols, colHasMissing,
      Cell.isNA, simpleImputerFitTransform, simpleImputerStrategies, tMiss]
  · simp [handle_missing_values, resolveColumns, Table.missingCols, colHasMissing,
      Cell.isNA, simpleImputerFitTransform, simpleImputerStrategies, Table.names,
      Table.getCol, imputeStat, Cell.toNum, Table.mapCols, tMiss, tMissMean]
    norm_num [listMean]
  · simp [handle_missing_values, resolveColumns, Table.missingCols, colHasMissing,
      Cell.isNA, simpleImputerFitTransform, simpleImputerStrategies, Table.names,
      Table.getCol, imputeStat, Cell.toNum, Table.mapCols, tMiss, tMissMedian]
    norm_num [listMedian, sortAsc, insertSorted, List.getD]

/-- C5 counterexample: with strategy `constant` and no fill value, a table
whose default selector resolves to the empty list (here: no missing values at
all) is returned unchanged by the early exit of line 24 — no
ConfigurationError is raised, contradicting "for every column selector". -/
theorem constant_no_fill_value_empty_selector_no_error :
    handle_missing_values tFull "constant" none none = .ok tFull := by
  simp [handle_missing_values, resolveColumns, Table.missingCols, colHasMissing,
    Cell.isNA, tFull]

/-- C5 amended: with strategy `constant` and no fill value,
`handle_missing_values` raises whenever the resolved column selector is
non-empty (an empty resolved selector returns the table unchanged first,
before the fill-value check).  With a fill value: if every selected column
exists in the frame, it returns a table of the same shape in which exactly
the missing cells of selected columns now hold the fill value; if the
(non-empty) selector names an absent column, the subscript of line 31 raises
a KeyError and nothing is filled. -/
theorem constant_requires_fill_value_amended (df : Table K)
    (columns : Option (List String)) :
    (resolveColumns df columns ≠ [] →
      handle_missing_values df "constant" columns none =
        .error "Must provide a fill_value if strategy is constant.")
    ∧ ∀ v : Cell K,
        ((∀ c ∈ resolveColumns df columns, c ∈ df.names) → ∃ df',
          handle_missing_values df "constant" columns (some v) = .ok df'
          ∧ df'.names = df.names
          ∧ ∀ (c : String) (i : Nat),
              df'.cellAt? c i = (df.cellAt? c i).map (fun cell =>
                if (resolveColumns df columns).contains c && cell.isNA then v
                else cell))
        ∧ (resolveColumns df columns ≠ [] →
            ¬ (∀ c ∈ resolveColumns df columns, c ∈ df.names) →
            handle_missing_values df "constant" columns (some v) =
              .error "KeyError: a selected column is not in the frame") := by
  constructor
  · intro h
    simp only [handle_missing_values]
    rw [if_neg h]
    simp
  · intro v
    constructor
    · intro hall
      by_cases hc : resolveColumns df columns = []
      · refine ⟨df, ?_, rfl, ?_⟩
        · simp only [handle_missing_values]
          rw [if_pos hc]
        · intro c i
          simp [hc]
      · refine ⟨fillnaCols df (resolveColumns df columns) v, ?_, ?_, ?_⟩
        · simp only [handle_missing_values]
          rw [if_neg hc]
          simp
          exact hall
        · exact Table.names_mapCols _ _
        · intro c i
          by_cases hm : c ∈ df.names
          · rw [Table.cellAt?, fillnaCols, Table.getCol_mapCols _ _ _ hm]
            by_cases hct : c ∈ resolveColumns df columns
            · simp [hct, Table.cellAt?]
            · simp [hct, Table.cellAt?]
          · have hm' : c ∉ (fillnaCols df (resolveColumns df columns) v).names := by
              rw [fillnaCols, Table.names_mapCols]; exact hm
            rw [Table.cellAt?, Table.cellAt?, Table.getCol_eq_nil df c hm,
              Table.getCol_eq_nil _ c hm']
            rfl
    · intro hne hnall
      push_neg at hnall
      simp only [handle_missing_values]
      rw [if_neg hne]
      simp
      exact hnall

/-- C5 witness: on a concrete table with a missing value and the default
selector the amended theorem yields the ConfigurationError; with a fill value
it fills exactly the holes of the selected columns; and a selector naming an
absent column yields the KeyError. -/
theorem constant_requires_fill_value_amended_witness :
    (resolveColumns tMiss none ≠ [] ∧
      handle_missing_values tMiss "constant" none none =
        .error "Must provide a fill_value if strategy is constant.")
    ∧ (∃ df', handle_missing_values tMiss "constant" none (some (.num 7)) = .ok df'
        ∧ df'.names = tMiss.names
        ∧ ∀ (c : String) (i : Nat),
            df'.cellAt? c i = (tMiss.cellAt? c i).map (fun cell =>
              if (resolveColumns tMiss none).contains c && cell.isNA then .num 7
              else cell))
    ∧ handle_missing_values tMiss "constant" (some ["a", "zzz"]) (some (.num 7)) =
        .error "KeyError: a selected column is not in the frame" := by
  have hne : resolveColumns tMiss none ≠ [] := by
    simp [resolveColumns, Table.missingCols, colHasMissing, Cell.isNA, tMiss]
  refine ⟨⟨hne, (constant_requires_fill_value_amended tMiss none).1 hne⟩, ?_, ?_⟩
  · exact ((constant_requires_fill_value_amended tMiss none).2 (.num 7)).1
      (by decide)
  · exact ((constant_requires_fill_value_amended tMiss (some ["a", "zzz"])).2
      (.num 7)).2 (by decide) (by decide)

/-- C6: the type converter never raises — a failed per-column cast returns the
table unchanged (first conjunct); the conversion loop of `clean_data` treats
the mapping entries independently, in order (second conjunct); and concretely
an unparseable first column does not block the second: casting both text
columns of `tConv` to float leaves `a` as text and converts `b` to 2. -/
theorem convert_failure_leaves_column_and_continues :
    (∀ (df : Table K) (c : String) (dt : DType),
       castColumn dt (df.getCol c) = none → convert_column_type df c dt = df)
    ∧ (∀ (df : Table K) (e : String × DType) (rest : List (String × DType)),
       applyConversions df (e :: rest) =
         applyConversions (convert_column_type df e.1 e.2) rest)
    ∧ applyConversions tConv [("a", .float), ("b", .float)] = tConvDone := by
  refine ⟨?_, ?_, ?_⟩
  · intro df c dt h
    simp [convert_column_type, h]
  · intro df e rest
    rfl
  · simp [applyConversions, convert_column_type, castColumn, castCell, parseFloat,
      Table.getCol, tConv, tConvDone, isWsChar, isDigitChar, digitsToNat,
      Table.mapCol, Table.mapCols]

/-- C6 witness: the first conjunct applied to the concrete failing column. -/
theorem convert_failure_leaves_column_and_continues_witness :
    castColumn DType.float (tConv.getCol "a") = none
    ∧ convert_column_type tConv "a" DType.float = tConv := by
  have h : castColumn DType.float (tConv.getCol "a") = none := by
    simp [castColumn, castCell, parseFloat, Table.getCol, tConv, isWsChar,
      isDigitChar]
  exact ⟨h, convert_failure_leaves_column_and_continues.1 tConv "a" DType.float h⟩

/-- C8: on the column `[1,2,3,4,100]`, pandas linear-interpolation quartiles
are Q1 = 2 and Q3 = 4, and IQR removal with factor 1.5 (bounds `[-1, 7]`)
keeps exactly the four rows `1,2,3,4`; on a constant column both bounds equal
the common value and the inclusive comparison keeps every row. -/
theorem iqr_removal_spec_example :
    pandasQuantile ((tOutlier.getCol "x").filterMap Cell.toNum) (1/4) = some 2
    ∧ pandasQuantile ((tOutlier.getCol "x").filterMap Cell.toNum) (3/4) = some 4
    ∧ remove_outliers_iqr tOutlier "x" (3/2) = tOutlierKept
    ∧ remove_outliers_iqr tConst "x" (3/2) = tConst := by
  have hv : List.filterMap Cell.toNum
      [Cell.num (1 : ℚ), .num 2, .num 3, .num 4, .num 100] = [1, 2, 3, 4, 100] := by
    simp [Cell.toNum]
  have h1 : pandasQuantile ([1, 2, 3, 4, 100] : List ℚ) (1/4) = some 2 := by
    norm_num [pandasQuantile, sortAsc, insertSorted, List.getD,
      show Int.toNat 1 = 1 from rfl]
  have h3 : pandasQuantile ([1, 2, 3, 4, 100] : List ℚ) (3/4) = some 4 := by
    norm_num [pandasQuantile, sortAsc, insertSorted, List.getD,
      show Int.toNat 3 = 3 from rfl]
  have hz : List.filterMap Cell.toNum
      [Cell.num (0 : ℚ), .num 0, .num 0, .num 0] = [0, 0, 0, 0] := by
    simp [Cell.toNum]
  have hq0 : pandasQuantile ([0, 0, 0, 0] : List ℚ) (1/4) = some 0 := by
    norm_num [pandasQuantile, sortAsc, insertSorted, List.getD,
      (by rw [Int.ceil_eq_iff]; norm_num : (⌈(3:ℚ)/4⌉ : ℤ) = 1),
      show Int.toNat 0 = 0 from rfl, show Int.toNat 1 = 1 from rfl]
  have hq0' : pandasQuantile ([0, 0, 0, 0] : List ℚ) (3/4) = some 0 := by
    norm_num [pandasQuantile, sortAsc, insertSorted, List.getD,
      (by rw [Int.ceil_eq_iff]; norm_num : (⌈(9:ℚ)/4⌉ : ℤ) = 3),
      show Int.toNat 2 = 2 from rfl, show Int.toNat 3 = 3 from rfl]
  refine ⟨?_, ?_, ?_, ?_⟩
  · rw [show (tOutlier.getCol "x") =
      [Cell.num (1 : ℚ), .num 2, .num 3, .num 4, .num 100] from rfl, hv, h1]
  · rw [show (tOutlier.getCol "x") =
      [Cell.num (1 : ℚ), .num 2, .num 3, .num 4, .num 100] from rfl, hv, h3]
  · simp only [remove_outliers_iqr, Table.getCol, tOutlier]
    norm_num [hv, h1, h3, Table.filterRows, maskFilter, tOutlierKept]
  · simp only [remove_outliers_iqr, Table.getCol, tConst]
    norm_num [hz, hq0, hq0', Table.filterRows, maskFilter]

/-- C4: with all three flags enabled, `clean_text_column` turns `" He!!o "`
into `"heo"` (first conjunct), and the transformation it computes is exactly
strip, then lowercase, then remove-special applied to each text cell (second
conjunct).  The code applies lowercase before strip (lines 117–120), but
lowercasing maps whitespace to itself, so the computed composite coincides
with the claimed order. -/
theorem clean_text_spec_example_and_order :
    clean_text_column tText "t" true true true = tTextClean
    ∧ ∀ (df : Table K) (c : String),
        clean_text_column df c true true true =
          df.mapCol c (List.map (strOp
            (fun s => removeSpecialStr (lowerStr (stripStr s))))) := by
  constructor
  · simp [clean_text_column, Table.mapCol, Table.mapCols, strOp, lowerStr,
      stripStr, removeSpecialStr, lowerChar, isWsChar, keepChar, tText, tTextClean]
  · intro df c
    show ((df.mapCol c (List.map (strOp lowerStr))).mapCol c
        (List.map (strOp stripStr))).mapCol c
        (List.map (strOp removeSpecialStr)) = _
    rw [Table.mapCol_mapCol, Table.mapCol_mapCol]
    congr 1
    funext cells
    rw [List.map_map, List.map_map]
    refine List.map_congr_left (fun cell _ => ?_)
    show strOp removeSpecialStr (strOp stripStr (strOp lowerStr cell)) = _
    rw [strOp_strOp, strOp_strOp]
    cases cell with
    | str s =>
      show Cell.str (removeSpecialStr (stripStr (lowerStr s))) = _
      rw [stripStr_lowerStr]
      rfl
    | num x => rfl
    | na => rfl

/-- C7: when the import collaborator fails, `clean_data` returns `None` (line
153) without invoking any later step: the result is `ok none` for every
configuration — even one, like `cfgBogus`, whose strategy and normalization
method are invalid and would raise if their steps ran. -/
theorem clean_data_import_failure_short_circuits
    (importFn : String → Option (Table ℝ)) (path : String) (cfg : CleanConfig)
    (h : importFn path = none) :
    clean_data importFn path cfg = .ok none := by
  unfold clean_data
  rw [h]

/-- C7 witness: a failing importer with a fully bogus configuration. -/
theorem clean_data_import_failure_short_circuits_witness :
    clean_data (fun _ => none) "no-such-file.csv" cfgBogus = .ok none :=
  clean_data_import_failure_short_circuits _ _ _ rfl

/-- C2: `clean_data` exposes no fill-value parameter and calls the
missing-value handler as `handle_missing_values(df, strategy)` (line 155),
leaving `fill_value=None`; so whenever the imported table has a missing value
(making the default selector non-empty), strategy `constant` raises the
ConfigurationError of lines 29–30 and no cleaned table is produced. -/
theorem clean_data_constant_strategy_always_raises
    (importFn : String → Option (Table ℝ)) (path : String) (df : Table ℝ)
    (cfg : CleanConfig) (him : importFn path = some df)
    (hmiss : df.hasMissing = true) (hstrat : cfg.strategy = "constant") :
    clean_data importFn path cfg =
      .error "Must provide a fill_value if strategy is constant." := by
  have hne : resolveColumns df none ≠ [] := missingCols_ne_nil df hmiss
  have hh : handle_missing_values df cfg.strategy none none =
      .error "Must provide a fill_value if strategy is constant." := by
    rw [hstrat]
    simp only [handle_missing_values, resolveColumns] at hne ⊢
    rw [if_neg hne]
    simp
  unfold clean_data
  rw [him]
  simp only [hh]
  rfl

/-- C2 witness: a concrete importer returning a table with one missing cell,
and the constant-strategy configuration. -/
theorem clean_data_constant_strategy_always_raises_witness :
    (fun _ : String => some tMissR) "data.csv" = some tMissR
    ∧ tMissR.hasMissing = true
    ∧ cfgConstant.strategy = "constant"
    ∧ clean_data (fun _ => some tMissR) "data.csv" cfgConstant =
        .error "Must provide a fill_value if strategy is constant." :=
  ⟨rfl, rfl, rfl,
    clean_data_constant_strategy_always_raises _ _ tMissR cfgConstant rfl rfl rfl⟩

/-- C3: the orchestrator's outlier loop (lines 157–159) rebinds the frame on
every iteration, so with two or more configured columns each later removal
runs on the table already filtered by the preceding ones — its quartiles are
those of the filtered column (first conjunct, stated on `applyOutlierRemoval`,
the loop `clean_data` runs).  Concretely, the cumulative semantics on
`tTwoCols` (second conjunct) differs from the spec-worded alternative that
computes every column's bounds on the original table (third and fourth
conjuncts): recomputed bounds on the filtered `b` column tighten to
`[-9/4, 15/4]` and also drop the row with `b = 6`. -/
theorem outlier_loop_uses_already_filtered_table :
    (∀ (df : Table ℝ) (c1 c2 : String) (rest : List String) (f : ℝ),
       applyOutlierRemoval df (c1 :: c2 :: rest) f =
         applyOutlierRemoval
           (remove_outliers_iqr (remove_outliers_iqr df c1 f) c2 f) rest f)
    ∧ applyOutlierRemoval tTwoCols ["a", "b"] (3/2) = tTwoColsSeq
    ∧ applyOutlierRemovalOriginalBounds tTwoCols ["a", "b"] (3/2) = tTwoColsOrig
    ∧ tTwoColsSeq ≠ tTwoColsOrig := by
  have h1 : pandasQuantile ([1, 2, 3, 4, 100] : List ℚ) (1/4) = some 2 := by
    norm_num [pandasQuantile, sortAsc, insertSorted, List.getD,
      show Int.toNat 1 = 1 from rfl]
  have h3 : pandasQuantile ([1, 2, 3, 4, 100] : List ℚ) (3/4) = some 4 := by
    norm_num [pandasQuantile, sortAsc, insertSorted, List.getD,
      show Int.toNat 3 = 3 from rfl]
  have hv : List.filterMap Cell.toNum
      [Cell.num (1 : ℚ), .num 2, .num 3, .num 4, .num 100] = [1, 2, 3, 4, 100] := by
    simp [Cell.toNum]
  have hvb : List.filterMap Cell.toNum
      [Cell.num (0 : ℚ), .num 0, .num 0, .num 6] = [0, 0, 0, 6] := by
    simp [Cell.toNum]
  have hvb5 : List.filterMap Cell.toNum
      [Cell.num (0 : ℚ), .num 0, .num 0, .num 6, .num 100] = [0, 0, 0, 6, 100] := by
    simp [Cell.toNum]
  have hb1 : pandasQuantile ([0, 0, 0, 6] : List ℚ) (1/4) = some 0 := by
    norm_num [pandasQuantile, sortAsc, insertSorted, List.getD,
      (by rw [Int.ceil_eq_iff]; norm_num : (⌈(3:ℚ)/4⌉ : ℤ) = 1),
      show Int.toNat 0 = 0 from rfl, show Int.toNat 1 = 1 from rfl]
  have hb3 : pandasQuantile ([0, 0, 0, 6] : List ℚ) (3/4) = some (3/2) := by
    norm_num [pandasQuantile, sortAsc, insertSorted, List.getD,
      (by rw [Int.ceil_eq_iff]; norm_num : (⌈(9:ℚ)/4⌉ : ℤ) = 3),
      (by rw [Int.floor_eq_iff]; norm_num : (⌊(9:ℚ)/4⌋ : ℤ) = 2),
      show Int.toNat 2 = 2 from rfl, show Int.toNat 3 = 3 from rfl]
  have hb51 : pandasQuantile ([0, 0, 0, 6, 100] : List ℚ) (1/4) = some 0 := by
    norm_num [pandasQuantile, sortAsc, insertSorted, List.getD,
      show Int.toNat 1 = 1 from rfl]
  have hb53 : pandasQuantile ([0, 0, 0, 6, 100] : List ℚ) (3/4) = some 6 := by
    norm_num [pandasQuantile, sortAsc, insertSorted, List.getD,
      show Int.toNat 3 = 3 from rfl]
  have hA : remove_outliers_iqr tTwoCols "a" (3/2) = tTwoColsOrig := by
    simp only [remove_outliers_iqr, Table.getCol, tTwoCols]
    norm_num [hv, h1, h3, Table.filterRows, maskFilter, tTwoColsOrig]
  have hcolmid : Table.getCol tTwoColsOrig "b" =
      [Cell.num (0 : ℚ), .num 0, .num 0, .num 6] := by
    simp [Table.getCol, tTwoColsOrig]
  have hcolsrc : Table.getCol tTwoCols "b" =
      [Cell.num (0 : ℚ), .num 0, .num 0, .num 6, .num 100] := by
    simp [Table.getCol, tTwoCols]
  have hB : remove_outliers_iqr tTwoColsOrig "b" (3/2) = tTwoColsSeq := by
    simp only [remove_outliers_iqr, hcolmid]
    norm_num [hvb, hb1, hb3, Table.filterRows, maskFilter, tTwoColsOrig, tTwoColsSeq]
  have hA2 : removeOutliersIqrBoundsFrom tTwoCols tTwoCols "a" (3/2) =
      tTwoColsOrig := by
    simp only [removeOutliersIqrBoundsFrom, Table.getCol, tTwoCols]
    norm_num [hv, h1, h3, Table.filterRows, maskFilter, tTwoColsOrig]
  have hB2 : removeOutliersIqrBoundsFrom tTwoCols tTwoColsOrig "b" (3/2) =
      tTwoColsOrig := by
    simp only [removeOutliersIqrBoundsFrom, hcolsrc, hcolmid]
    norm_num [hvb5, hb51, hb53, Table.filterRows, maskFilter, tTwoColsOrig]
  refine ⟨fun df c1 c2 rest f => rfl, ?_, ?_, ?_⟩
  · show remove_outliers_iqr (remove_outliers_iqr tTwoCols "a" (3/2)) "b" (3/2) = _
    rw [hA, hB]
  · show removeOutliersIqrBoundsFrom tTwoCols
      (removeOutliersIqrBoundsFrom tTwoCols tTwoCols "a" (3/2)) "b" (3/2) = _
    rw [hA2, hB2]
  · simp [tTwoColsSeq, tTwoColsOrig]

/-- C9: `normalize_data` on the column `[0,5,10]` with method `minmax` yields
exactly `[0, 1/2, 1]`, and with method `standard` a column of mean 0 and unit
POPULATION variance (`ddof = 0`, the convention of scikit-learn's
`StandardScaler`). -/
theorem normalize_spec_example :
    normalize_data tNorm ["x"] "minmax" = .ok tNormMinmax
    ∧ ∃ t', normalize_data tNorm ["x"] "standard" = .ok t'
        ∧ listMean ((t'.getCol "x").filterMap Cell.toNum) = 0
        ∧ popVar ((t'.getCol "x").filterMap Cell.toNum) = 1 := by
  constructor
  · simp [normalize_data, Table.names, Table.getCol, Table.mapCols,
      minmaxTransformCol, Cell.toNum, listMin, listMax, tNorm, tNormMinmax]
    norm_num
  · have hvar : popVar ([0, 5, 10] : List ℝ) = 50/3 := by
      norm_num [popVar, listMean]
    have hpos : (0:ℝ) < Real.sqrt (50/3) := Real.sqrt_pos.mpr (by norm_num)
    have hne : Real.sqrt (50/3) ≠ 0 := ne_of_gt hpos
    have hsq : Real.sqrt (50/3) ^ 2 = 50/3 := Real.sq_sqrt (by norm_num)
    have hcells : standardTransformCol [Cell.num (0:ℝ), .num 5, .num 10] =
        [Cell.num ((0 - 5)/Real.sqrt (50/3)), Cell.num ((5 - 5)/Real.sqrt (50/3)),
          Cell.num ((10 - 5)/Real.sqrt (50/3))] := by
      simp only [standardTransformCol, List.filterMap_cons, List.filterMap_nil,
        Cell.toNum, hvar]
      rw [show listMean ([0, 5, 10] : List ℝ) = 5 by norm_num [listMean], if_neg hne]
      norm_num
    refine ⟨⟨[("x", standardTransformCol [Cell.num 0, .num 5, .num 10])]⟩, ?_, ?_, ?_⟩
    · simp [normalize_data, Table.names, Table.getCol, Table.mapCols, tNorm,
        Cell.toNum]
    · rw [show Table.getCol (K := ℝ)
          ⟨[("x", standardTransformCol [Cell.num 0, .num 5, .num 10])]⟩ "x" =
          standardTransformCol [Cell.num 0, .num 5, .num 10] from rfl, hcells]
      simp only [List.filterMap_cons, List.filterMap_nil, Cell.toNum]
      field_simp [listMean]
      ring
    · rw [show Table.getCol (K := ℝ)
          ⟨[("x", standardTransformCol [Cell.num 0, .num 5, .num 10])]⟩ "x" =
          standardTransformCol [Cell.num 0, .num 5, .num 10] from rfl, hcells]
      simp only [List.filterMap_cons, List.filterMap_nil, Cell.toNum]
      have hmean : listMean [(0 - 5)/Real.sqrt (50/3), (5 - 5)/Real.sqrt (50/3),
          (10 - 5)/Real.sqrt (50/3)] = 0 := by
        field_simp [listMean]
        ring
      simp only [popVar, hmean]
      rw [show ∀ a b c : ℝ, [a, b, c].map (fun x => (x - 0)^2) = [a^2, b^2, c^2] from
        by intro a b c; norm_num]
      simp only [List.sum_cons, List.sum_nil, List.length_cons, List.length_nil]
      rw [div_pow, div_pow, div_pow, hsq]
      norm_num

/-- C3 witness: the cumulative loop evaluated at the concrete two-column
table, straight from the theorem. -/
theorem outlier_loop_uses_already_filtered_table_witness :
    applyOutlierRemoval tTwoCols ["a", "b"] (3/2) = tTwoColsSeq :=
  outlier_loop_uses_already_filtered_table.2.1

theorem length_standardTransformCol (cells : List (Cell ℝ)) :
    (standardTransformCol cells).length = cells.length := by
  simp [standardTransformCol]

theorem length_minmaxTransformCol (cells : List (Cell ℝ)) :
    (minmaxTransformCol cells).length = cells.length := by
  simp [minmaxTransformCol]

theorem Table.names_mapCol (t : Table K) (c : String)
    (f : List (Cell K) → List (Cell K)) : (t.mapCol c f).names = t.names :=
  Table.names_mapCols _ _

theorem Table.length_getCol_mapCol (t : Table K) (c : String)
    (f : List (Cell K) → List (Cell K))
    (hf : ∀ cells, (f cells).length = cells.length) (c' : String) :
    ((t.mapCol c f).getCol c').length = (t.getCol c').length := by
  refine Table.length_getCol_mapCols _ _ (fun name cells => ?_) _
  by_cases h : name == c <;> simp [h, hf]

/-- C10: `normalize_data` with a non-empty column list rewrites only the
listed columns, and `clean_text_column` rewrites only its named column: in
both cases the column names and their order are unchanged, every other
column's cells are exactly as before, and every column keeps its length (so
row count and row order are preserved — both operations map cells in place
and never drop or reorder rows). -/
theorem normalize_and_clean_text_frame_effect :
    (∀ (df df' : Table ℝ) (cols : List String) (method : String),
       cols ≠ [] → normalize_data df cols method = .ok df' →
         df'.names = df.names
         ∧ (∀ c, c ∉ cols → df'.getCol c = df.getCol c)
         ∧ (∀ c, (df'.getCol c).length = (df.getCol c).length))
    ∧ (∀ (df : Table K) (column : String) (l sp spec : Bool),
         (clean_text_column df column l sp spec).names = df.names
         ∧ (∀ c, c ≠ column →
             (clean_text_column df column l sp spec).getCol c = df.getCol c)
         ∧ (∀ c, ((clean_text_column df column l sp spec).getCol c).length =
             (df.getCol c).length)) := by
  constructor
  · intro df df' cols method hne h
    simp only [normalize_data] at h
    rw [if_neg hne] at h
    by_cases hm : method = "standard" ∨ method = "minmax"
    swap
    · rw [if_neg hm] at h
      exact absurd h (by simp)
    rw [if_pos hm] at h
    by_cases hnm : cols.all (fun c => df.names.contains c) = true
    swap
    · rw [if_neg hnm] at h
      exact absurd h (by simp)
    rw [if_pos hnm] at h
    by_cases hstr : cols.any (fun c => (df.getCol c).any
        (fun cell => match cell with | .str _ => true | _ => false)) = true
    · rw [if_pos hstr] at h
      exact absurd h (by simp)
    rw [if_neg hstr] at h
    have hdf' : df' = df.mapCols (fun name cells =>
        if cols.contains name then
          if method = "standard" then standardTransformCol cells
          else minmaxTransformCol cells
        else cells) := by
      injection h with h'
      exact h'.symm
    subst hdf'
    refine ⟨Table.names_mapCols _ _, fun c hc => ?_, fun c => ?_⟩
    · by_cases hmem : c ∈ df.names
      · rw [Table.getCol_mapCols _ _ _ hmem]
        simp [hc]
      · rw [Table.getCol_eq_nil _ _ hmem, Table.getCol_eq_nil]
        rw [Table.names_mapCols]
        exact hmem
    · refine Table.length_getCol_mapCols _ _ (fun name cells => ?_) _
      by_cases h1 : name ∈ cols
      · by_cases h2 : method = "standard" <;>
          simp [h1, h2, length_standardTransformCol, length_minmaxTransformCol]
      · simp [h1]
  · intro df column l sp spec
    have hlen : ∀ (t : Table K) (g : Cell K → Cell K) (c : String),
        ((t.mapCol column (List.map g)).getCol c).length = (t.getCol c).length :=
      fun t g c => Table.length_getCol_mapCol _ _ _ (fun cells => by simp) _
    refine ⟨?_, fun c hc => ?_, fun c => ?_⟩
    · unfold clean_text_column
      cases l <;> cases sp <;> cases spec <;>
        simp [Table.names_mapCol]
    · unfold clean_text_column
      cases l <;> cases sp <;> cases spec <;>
        simp [Table.getCol_mapCol_ne _ _ _ _ hc]
    · unfold clean_text_column
      cases l <;> cases sp <;> cases spec <;>
        simp [hlen]

/-- A concrete evaluation shared with the frame-effect witness: min-max
scaling `tFrame`'s numeric column `[0,10]` yields `[0,1]` and leaves the text
column alone. -/
theorem normalize_minmax_tFrame :
    normalize_data tFrame ["x"] "minmax" = .ok tFrameMinmax := by
  simp [normalize_data, Table.names, Table.getCol, Table.mapCols,
    minmaxTransformCol, Cell.toNum, listMin, listMax, tFrame, tFrameMinmax]

/-- C10 witness: the frame-effect theorem applied to `tFrame`: the unlisted
text column `y` is untouched by normalization, and `clean_text_column` on
`tText`'s column `t` leaves the numeric column `k` untouched. -/
theorem normalize_and_clean_text_frame_effect_witness :
    (["x"] : List String) ≠ []
    ∧ tFrameMinmax.getCol "y" = tFrame.getCol "y"
    ∧ (clean_text_column tText "t" true true true).getCol "k" = tText.getCol "k" :=
  ⟨by decide,
    ((@normalize_and_clean_text_frame_effect ℚ _ _ _).1 tFrame tFrameMinmax ["x"]
      "minmax" (by decide) normalize_minmax_tFrame).2.1 "y" (by decide),
    ((@normalize_and_clean_text_frame_effect ℚ _ _ _).2 tText "t" true true
      true).2.1 "k" (by decide)⟩

end MyDataLib
